import Mathlib

/-!
Verification of the `jupyterlab-todo-list` core: the todo item state model
(`src/TodoApp.tsx`) and the dual-tier sync controller (`src/panel.tsx`),
shallowly embedded in Lean.

Conventions of the embedding:
* optional TS fields become `Option`; JS numeric timestamps become `Nat`;
* `Date.now()` is passed in as an explicit `now : Nat` argument;
* `crypto.randomUUID()` is passed in as an explicit fresh-id argument;
* collaborator behaviour (HTTP responses, cache reads/writes, thrown
  exceptions) is passed in as explicit outcome data, and every observable
  side effect (requests issued, cache writes, log lines) is recorded in an
  event trace;
* JS `Array.prototype.sort` (stable, ordered by the comparator) is modelled
  by the stable `List.mergeSort` with the comparator translated to a
  boolean `le`.
-/

namespace TodoCore

/-- The origin of a todo item: entered by the user (`'manual'`) or produced
by the notebook scanner (`'notebook'`). Mirrors `TodoSource` in
`src/TodoApp.tsx`. -/
inductive TodoSource where
  | manual
  | notebook
deriving DecidableEq, Repr

/-- A todo item, mirroring the `Todo` type of `src/TodoApp.tsx` line by
line. The optional TS fields (`completedAt?`, `source?`, `originPath?`,
`originCell?`, `originLine?`) become `Option`. -/
structure Todo where
  id : String
  text : String
  done : Bool
  completedAt : Option Nat := none
  source : Option TodoSource := none
  originPath : Option String := none
  originCell : Option Nat := none
  originLine : Option Nat := none
deriving DecidableEq, Repr

/-- `item.source === 'notebook'` (TodoApp.tsx line 292). -/
def isNotebookTodo (t : Todo) : Bool := t.source = some TodoSource.notebook

/-- The body of the `map` inside `toggle` (TodoApp.tsx lines 108-118): an
item whose id differs is returned unchanged; the matching item has `done`
flipped, and `completedAt` set to `Date.now()` when it becomes done and
cleared (`undefined`) otherwise. -/
def toggleItem (now : Nat) (id : String) (item : Todo) : Todo :=
  if item.id ≠ id then item
  else
    let d := !item.done
    { item with done := d, completedAt := if d then some now else none }

/-- The sort key `x.completedAt ?? 0` used by the comparator in `toggle`
(TodoApp.tsx line 122). -/
def completedKey (t : Todo) : Nat := t.completedAt.getD 0

/-- The comparator `(a, b) => (b.completedAt ?? 0) - (a.completedAt ?? 0)`
of TodoApp.tsx line 122, rendered as the boolean order "`a` may precede
`b`", which holds exactly when the comparator value is ≤ 0. -/
def completedLe (a b : Todo) : Bool := decide (completedKey b ≤ completedKey a)

/-- `toggle` (TodoApp.tsx lines 106-125): flip the matching item, then
rebuild the list as the still-pending items (in order) followed by the done
items sorted by `completedAt` descending. JS `Array.prototype.sort` is
stable, hence the stable `List.mergeSort`. -/
def toggle (now : Nat) (id : String) (prev : List Todo) : List Todo :=
  let next := prev.map (toggleItem now id)
  let pending := next.filter (fun item => !item.done)
  let completed := (next.filter (fun item => item.done)).mergeSort completedLe
  pending ++ completed

/-- `remove` (TodoApp.tsx lines 127-129): keep every item whose id
differs. -/
def remove (id : String) (prev : List Todo) : List Todo :=
  prev.filter (fun item => item.id ≠ id)

/-- JS `String.prototype.trim`: strip leading and trailing whitespace,
defined over the string's character list so that it evaluates inside the
kernel (Lean's own `String.trim` has the same semantics but is opaque to
kernel reduction). -/
def jsTrim (s : String) : String :=
  ⟨((s.data.dropWhile Char.isWhitespace).reverse.dropWhile
      Char.isWhitespace).reverse⟩

/-- `add` (TodoApp.tsx lines 94-104), at the list level: no-op when the
trimmed text is empty, otherwise prepend a fresh manual item with
`done := false` and no `completedAt` (the TS literal sets only `id`, `text`
and `done`; the other fields are absent, i.e. `none`). The fresh
`crypto.randomUUID()` is passed in as `freshId`. -/
def add (freshId text : String) (prev : List Todo) : List Todo :=
  if jsTrim text = "" then prev
  else { id := freshId, text := jsTrim text, done := false } :: prev

/-- The in-flight edit session: the `editingId` / `editText` component state
of TodoApp.tsx lines 36-37. -/
structure EditSession where
  editingId : Option String
  editText : String
deriving DecidableEq, Repr

/-- `startEdit` (TodoApp.tsx lines 144-150): rejected (no state change)
when the item is done; otherwise records the item's id and text in the edit
session. -/
def startEdit (todo : Todo) (es : EditSession) : EditSession :=
  if todo.done then es
  else { editingId := some todo.id, editText := todo.text }

/-- `cancelEdit` (TodoApp.tsx lines 152-155). -/
def cancelEdit (_es : EditSession) : EditSession :=
  { editingId := none, editText := "" }

/-- `submitEdit` (TodoApp.tsx lines 164-179), acting on the list and the
edit session: no-op without an in-flight edit; empty trimmed text cancels;
otherwise the matching item's `text` is replaced (nothing else changes) and
the session is cleared. -/
def submitEdit (es : EditSession) (prev : List Todo) :
    List Todo × EditSession :=
  match es.editingId with
  | none => (prev, es)
  | some editingId =>
    let trimmed := jsTrim es.editText
    if trimmed = "" then (prev, cancelEdit es)
    else
      (prev.map fun item =>
        if item.id = editingId then { item with text := trimmed } else item,
       cancelEdit es)

/-- `visibleItems` (TodoApp.tsx lines 234-240): when notebook todos are
hidden, filter out every `source === 'notebook'` item. -/
def visibleItems (showNotebookTodos : Bool) (items : List Todo) : List Todo :=
  if showNotebookTodos then items
  else items.filter fun item => !(item.source = some TodoSource.notebook : Bool)

/-- Per-item render guard `disableInteractions = isNotebookTodo || isEditing`
(TodoApp.tsx lines 299-300): the checkbox driving `toggle` is rendered
`disabled` exactly when this holds. -/
def disableInteractions (editingId : Option String) (item : Todo) : Bool :=
  isNotebookTodo item || editingId = some item.id

/-- Per-item render guard `showEditButton = !item.done && !isNotebookTodo`
(TodoApp.tsx line 301): the Edit button (which calls `startEdit`) is
rendered only when this holds. -/
def showEditButton (item : Todo) : Bool :=
  !item.done && !isNotebookTodo item

/-- TodoApp.tsx lines 363-387: a notebook item renders an Open button,
every other item renders the Delete button that drives `remove`. -/
def showDeleteButton (item : Todo) : Bool :=
  !isNotebookTodo item

/-- The refresh indicator state of TodoApp.tsx lines 38-40. -/
inductive RefreshState where
  | idle
  | refreshing
  | completed
deriving DecidableEq, Repr

/-- One observable action performed by the `refresh` callback, in program
order. `scheduleTimer delay target` records
`setTimeout(() => setRefreshState(target), delay)` — the delay in
milliseconds and the state the callback installs when it fires. -/
inductive RAction where
  | clearPendingTimer
  | setRefreshState (s : RefreshState)
  | setItems (l : List Todo)
  | logRefreshDebug
  | logRefreshError
  | scheduleTimer (delayMs : Nat) (target : RefreshState)
deriving DecidableEq, Repr

/-- `refresh` (TodoApp.tsx lines 207-232) as the trace of actions it
performs, given whether a completion timer is pending
(`refreshCompletionTimeout.current` non-null) and the outcome of
`loadTodos()` (`Except.error` models a rejected promise, caught by the
`catch`). First any pending timer is cleared, then the state becomes
`refreshing`; on success the items are replaced, the state becomes
`completed` and a 1200 ms timer back to `idle` is scheduled; on failure the
error is logged and the `finally` block goes straight to `idle`. -/
def refresh (timerPending : Bool) (outcome : Except Unit (List Todo)) :
    List RAction :=
  (if timerPending then [RAction.clearPendingTimer] else []) ++
    RAction.setRefreshState RefreshState.refreshing ::
    match outcome with
    | Except.ok next =>
        [RAction.setItems next, RAction.logRefreshDebug,
         RAction.setRefreshState RefreshState.completed,
         RAction.scheduleTimer 1200 RefreshState.idle]
    | Except.error _ =>
        [RAction.logRefreshError,
         RAction.setRefreshState RefreshState.idle]

/-- One user-level Item Store mutation, with the ambient data the component
reads at that moment (`Date.now()`, `crypto.randomUUID()`) made explicit.
`edit id newText` is `startEdit` on the item followed by `submitEdit` with
the typed text. -/
inductive Op where
  | add (freshId text : String)
  | toggle (now : Nat) (id : String)
  | remove (id : String)
  | edit (id newText : String)
deriving DecidableEq, Repr

/-- Apply one mutation to the list, as the corresponding callback does. -/
def applyOp (l : List Todo) : Op → List Todo
  | Op.add freshId text => add freshId text l
  | Op.toggle now id => toggle now id l
  | Op.remove id => remove id l
  | Op.edit id newText =>
      (submitEdit { editingId := some id, editText := newText } l).1

/-- Run a mutation sequence from the component's initial empty list
(TodoApp.tsx line 33). -/
def run (ops : List Op) : List Todo :=
  ops.foldl applyOp []

/-- The done/completedAt coupling invariant: an item is done exactly when
its completion timestamp is present. -/
def doneInv (l : List Todo) : Prop :=
  ∀ i ∈ l, i.done = true ↔ i.completedAt.isSome = true

/-- A pending notebook-derived item (concrete instance for evaluation). -/
def exNbPending : Todo :=
  { id := "n1", text := "t", done := false,
    source := some TodoSource.notebook }

/-- `exNbPending` after being flipped done at time 5. -/
def exNbDone : Todo :=
  { id := "n1", text := "t", done := true, completedAt := some 5,
    source := some TodoSource.notebook }

/-- A done manual item with a completion timestamp. -/
def exMDone : Todo :=
  { id := "a", text := "x", done := true, completedAt := some 5 }

/-- A pending manual item. -/
def exMPend : Todo :=
  { id := "b", text := "y", done := false }

/-- A single pending manual item used by witnesses. -/
def exA : Todo :=
  { id := "a", text := "t", done := false }

end TodoCore

namespace TodoPanel

open TodoCore

/-- An exception value, as the controller's catch blocks can distinguish
it: a `ServerConnection.ResponseError` carrying an HTTP status, or any
other thrown value. -/
inductive Err where
  | response (status : Nat)
  | other
deriving DecidableEq, Repr

/-- Outcome of `ServerConnection.makeRequest` plus the `response.ok` check:
either a 2xx response with a parsed JSON body, a non-2xx status (the code
then throws `ResponseError(response)`), or the request itself throwing. -/
inductive HttpOutcome (β : Type) where
  | ok (body : β)
  | status (code : Nat)
  | netThrow
deriving DecidableEq, Repr

/-- The parsed GET body `{ items?: Todo[] }`: either it has an `items`
array or it does not (`Array.isArray(payload.items)` false). -/
inductive GetBody where
  | items (l : List Todo)
  | noItems
deriving DecidableEq, Repr

/-- Outcome of `this._state.fetch(storageKey)`: a stored list, some non-list
value (`Array.isArray` false, e.g. `null` or a corrupt payload), or a
thrown exception. -/
inductive CacheFetchOutcome where
  | list (l : List Todo)
  | nonList
  | throws
deriving DecidableEq, Repr

/-- Every observable effect of the controller, recorded in program order. -/
inductive Event where
  | getRequest
  | putRequest (body : List Todo)
  | cacheWrite (items : List Todo)
  | cacheRead
  | logEndpointMissingNotice
  | logLoadServerError
  | logLoadLocalError
  | logSaveLocalError
  | logSaveServerError
deriving DecidableEq, Repr

/-- Collaborator behaviour for one `_loadTodos` invocation: the GET
outcome, whether the `state.save` overwrite of the cache throws, and the
`state.fetch` outcome used by the fallback path. -/
structure LoadBehavior where
  get : HttpOutcome GetBody
  cacheSaveThrows : Bool
  cacheFetch : CacheFetchOutcome
deriving DecidableEq, Repr

/-- Collaborator behaviour for one `_saveTodos` invocation: whether the
local `state.save` throws, and the PUT outcome (the body of a 2xx PUT
response is ignored). -/
structure SaveBehavior where
  cacheSaveThrows : Bool
  put : HttpOutcome Unit
deriving DecidableEq, Repr

/-- `_filterManualTodos` (panel.tsx lines 171-173):
`todos.filter(todo => todo.source !== 'notebook')`. -/
def filterManualTodos (todos : List Todo) : List Todo :=
  todos.filter fun todo => todo.source ≠ some TodoSource.notebook

/-- `_handleEndpointMissing` (panel.tsx lines 157-169), over the sticky
`_endpointMissing` flag: a `ResponseError` with status 404 is recognised
(returns `true`), logs the diagnostic notice only when the flag was not yet
set, and sets the flag. Anything else is not recognised and leaves the flag
alone. Returns (recognised, new flag, log events). -/
def handleEndpointMissing (flag : Bool) (err : Err) :
    Bool × Bool × List Event :=
  match err with
  | Err.response 404 =>
      (true, true, if flag then [] else [Event.logEndpointMissingNotice])
  | _ => (false, flag, [])

/-- `_loadFromState` (panel.tsx lines 98-108): read the cache; a non-list
payload yields `[]`; a thrown exception is caught, logged, and yields `[]`.
Returns (result, events). -/
def loadFromState (cacheFetch : CacheFetchOutcome) :
    List Todo × List Event :=
  match cacheFetch with
  | CacheFetchOutcome.list l => (l, [Event.cacheRead])
  | CacheFetchOutcome.nonList => ([], [Event.cacheRead])
  | CacheFetchOutcome.throws =>
      ([], [Event.cacheRead, Event.logLoadLocalError])

/-- The error that reaches the catch block of `_loadFromServer`, when the
try body does not return normally: a non-2xx response throws
`ResponseError(status)`; a throwing request, and a throwing cache
overwrite on the success path, surface as generic exceptions. `none` means
the try body returned normally. -/
def loadServerErr (b : LoadBehavior) : Option Err :=
  match b.get with
  | HttpOutcome.ok (GetBody.items _) =>
      if b.cacheSaveThrows then some Err.other else none
  | HttpOutcome.ok GetBody.noItems => none
  | HttpOutcome.status code => some (Err.response code)
  | HttpOutcome.netThrow => some Err.other

/-- `_loadFromServer` (panel.tsx lines 110-137): issue the GET; on a 2xx
response whose body has an `items` array, overwrite the local cache with
the manual-only subset and return the full array; a 2xx body without an
`items` array returns `[]`; any failure (non-2xx, request throw, cache
overwrite throw) is caught — a recognised 404 is absorbed, anything else
logged — and returns `null`. Returns (result, new flag, events). -/
def loadFromServer (flag : Bool) (b : LoadBehavior) :
    Option (List Todo) × Bool × List Event :=
  match loadServerErr b with
  | none =>
      match b.get with
      | HttpOutcome.ok (GetBody.items l) =>
          (some l, flag,
           [Event.getRequest, Event.cacheWrite (filterManualTodos l)])
      | _ => (some [], flag, [Event.getRequest])
  | some err =>
      let attempted :=
        match b.get with
        | HttpOutcome.ok (GetBody.items l) =>
            [Event.getRequest, Event.cacheWrite (filterManualTodos l)]
        | _ => [Event.getRequest]
      let handled := handleEndpointMissing flag err
      if handled.1 then (none, handled.2.1, attempted ++ handled.2.2)
      else (none, handled.2.1,
        attempted ++ handled.2.2 ++ [Event.logLoadServerError])

/-- `_loadTodos` (panel.tsx lines 61-67): try the server; a non-`null`
result is returned as-is, otherwise fall back to the local cache. Returns
(result, new flag, events). -/
def loadTodos (flag : Bool) (b : LoadBehavior) :
    List Todo × Bool × List Event :=
  match loadFromServer flag b with
  | (some serverItems, flag2, evs) => (serverItems, flag2, evs)
  | (none, flag2, evs) =>
      let fallback := loadFromState b.cacheFetch
      (fallback.1, flag2, evs ++ fallback.2)

/-- `_saveTodos` (panel.tsx lines 69-96): compute the manual-only subset;
write it to the local cache (a throw is caught and logged, and does not
stop the remote write); then PUT the same subset (a non-2xx response
throws; a recognised 404 is absorbed by the sticky-flag handler, any other
failure is logged). The function never rejects: every branch returns
normally. Returns (new flag, events). -/
def saveTodos (flag : Bool) (todos : List Todo) (b : SaveBehavior) :
    Bool × List Event :=
  let manualTodos := filterManualTodos todos
  let localEvs :=
    Event.cacheWrite manualTodos ::
      (if b.cacheSaveThrows then [Event.logSaveLocalError] else [])
  let putEvs := [Event.putRequest manualTodos]
  match b.put with
  | HttpOutcome.ok _ => (flag, localEvs ++ putEvs)
  | HttpOutcome.status code =>
      let handled := handleEndpointMissing flag (Err.response code)
      if handled.1 then (handled.2.1, localEvs ++ putEvs ++ handled.2.2)
      else (handled.2.1,
        localEvs ++ putEvs ++ handled.2.2 ++ [Event.logSaveServerError])
  | HttpOutcome.netThrow =>
      let handled := handleEndpointMissing flag Err.other
      if handled.1 then (handled.2.1, localEvs ++ putEvs ++ handled.2.2)
      else (handled.2.1,
        localEvs ++ putEvs ++ handled.2.2 ++ [Event.logSaveServerError])

/-- One controller operation in a session: a load with its collaborator
behaviour, or a save of a snapshot with its collaborator behaviour. -/
inductive SyncOp where
  | load (b : LoadBehavior)
  | save (todos : List Todo) (b : SaveBehavior)
deriving DecidableEq, Repr

/-- Run one operation against the sticky flag, yielding the new flag and
the events it emitted. -/
def syncStep (flag : Bool) : SyncOp → Bool × List Event
  | SyncOp.load b => (loadTodos flag b).2
  | SyncOp.save todos b => saveTodos flag todos b

/-- Run a session: fold the operations from a starting flag, concatenating
all emitted events. -/
def runSessionFrom (flag : Bool) : List SyncOp → Bool × List Event
  | [] => (flag, [])
  | op :: rest =>
      let s := syncStep flag op
      let r := runSessionFrom s.1 rest
      (r.1, s.2 ++ r.2)

/-- A full controller session starts with the `_endpointMissing` flag
`false` (panel.tsx line 34). -/
def runSession (ops : List SyncOp) : Bool × List Event :=
  runSessionFrom false ops

/-- Does the operation's remote request fail with a 404 (`ResponseError`
whose status is 404), the endpoint-missing case? For a load this is the
GET response status, for a save the PUT response status. -/
def raises404 : SyncOp → Bool
  | SyncOp.load b =>
      match b.get with
      | HttpOutcome.status code => code == 404
      | _ => false
  | SyncOp.save _ b =>
      match b.put with
      | HttpOutcome.status code => code == 404
      | _ => false

/-- Does the operation's remote tier fail with anything other than a 404?
For a load: a non-404 non-2xx status, a throwing request, or a throwing
cache overwrite on the 2xx-with-items path (all reach the same catch); for
a save: a non-404 non-2xx status or a throwing request. A throwing local
cache write during a save is a local failure, not a remote one. -/
def remoteFailsOther : SyncOp → Bool
  | SyncOp.load b =>
      match b.get with
      | HttpOutcome.status code => code != 404
      | HttpOutcome.netThrow => true
      | HttpOutcome.ok (GetBody.items _) => b.cacheSaveThrows
      | HttpOutcome.ok GetBody.noItems => false
  | SyncOp.save _ b =>
      match b.put with
      | HttpOutcome.status code => code != 404
      | HttpOutcome.netThrow => true
      | HttpOutcome.ok _ => false

/-- Is the event one of the two per-occurrence remote-failure log lines? -/
def isServerErrorLog : Event → Bool
  | Event.logLoadServerError => true
  | Event.logSaveServerError => true
  | _ => false

/-- Is the event the once-per-session endpoint-missing diagnostic line? -/
def isEndpointMissingLog : Event → Bool
  | Event.logEndpointMissingNotice => true
  | _ => false

/-- A manual item as the server could return it (concrete instance). -/
def exSrvManual : Todo :=
  { id := "s", text := "from server", done := false }

/-- A notebook-derived item as the server could return it. -/
def exSrvNotebook : Todo :=
  { id := "n", text := "scan", done := false,
    source := some TodoSource.notebook }

/-- A manual item as the local cache could hold it. -/
def exCached : Todo :=
  { id := "c", text := "from cache", done := false }

end TodoPanel

namespace TodoCore

theorem toggleItem_doneInv (now : Nat) (id : String) {i : Todo}
    (h : i.done = true ↔ i.completedAt.isSome = true) :
    (toggleItem now id i).done = true
      ↔ (toggleItem now id i).completedAt.isSome = true := by
  unfold toggleItem
  by_cases hid : i.id = id
  · simp only [hid, ne_eq, not_true_eq_false, if_false]
    cases hdone : i.done <;> simp [hdone]
  · simpa [hid] using h

theorem mem_toggle {now : Nat} {id : String} {l : List Todo} {i : Todo}
    (h : i ∈ toggle now id l) : ∃ j ∈ l, i = toggleItem now id j := by
  unfold toggle at h
  rcases List.mem_append.1 h with h1 | h1
  · rcases List.mem_map.1 (List.mem_filter.1 h1).1 with ⟨j, hj, hji⟩
    exact ⟨j, hj, hji.symm⟩
  · have h2 := (List.mergeSort_perm _ completedLe).mem_iff.1 h1
    rcases List.mem_map.1 (List.mem_filter.1 h2).1 with ⟨j, hj, hji⟩
    exact ⟨j, hj, hji.symm⟩

theorem doneInv_applyOp {l : List Todo} (h : doneInv l) (op : Op) :
    doneInv (applyOp l op) := by
  cases op with
  | add freshId text =>
      intro i hi
      unfold applyOp add at hi
      by_cases ht : jsTrim text = ""
      · exact h i (by simpa [ht] using hi)
      · rcases by simpa [ht] using hi with hnew | hold
        · subst hnew; simp
        · exact h i hold
  | toggle now id =>
      intro i hi
      rcases mem_toggle hi with ⟨j, hj, hji⟩
      subst hji
      exact toggleItem_doneInv now id (h j hj)
  | remove id =>
      intro i hi
      exact h i (List.mem_filter.1 hi).1
  | edit id newText =>
      intro i hi
      unfold applyOp submitEdit at hi
      by_cases ht : jsTrim newText = ""
      · exact h i (by simpa [ht] using hi)
      · rcases List.mem_map.1 (by simpa [ht] using hi) with ⟨j, hj, hji⟩
        subst hji
        by_cases hid : j.id = id <;> simpa [hid] using h j hj

theorem doneInv_foldl (ops : List Op) :
    ∀ l, doneInv l → doneInv (ops.foldl applyOp l) := by
  induction ops with
  | nil => exact fun l h => h
  | cons op rest ih => exact fun l h => ih _ (doneInv_applyOp h op)

theorem doneInv_run (ops : List Op) : doneInv (run ops) :=
  doneInv_foldl ops [] (by intro i hi; cases hi)

theorem completedLe_trans (a b c : Todo) (h1 : completedLe a b = true)
    (h2 : completedLe b c = true) : completedLe a c = true := by
  unfold completedLe at *
  exact decide_eq_true (Nat.le_trans (of_decide_eq_true h2) (of_decide_eq_true h1))

theorem completedLe_total (a b : Todo) :
    (completedLe a b || completedLe b a) = true := by
  unfold completedLe
  rcases Nat.le_total (completedKey a) (completedKey b) with h | h <;> simp [h]

/-- The definitional shape of `toggle`: still-pending items of the flipped
list, then the stably sorted done items. -/
theorem toggle_parts (now : Nat) (id : String) (l : List Todo) :
    toggle now id l
      = (l.map (toggleItem now id)).filter (fun i => !i.done)
        ++ ((l.map (toggleItem now id)).filter fun i => i.done).mergeSort
            completedLe := rfl

theorem mem_mergeSort_done {next : List Todo}
    {x : Todo}
    (hx : x ∈ (next.filter fun i => i.done).mergeSort completedLe) :
    x.done = true :=
  (List.mem_filter.1 ((List.mergeSort_perm _ completedLe).mem_iff.1 hx)).2

end TodoCore

section Claims

open TodoCore TodoPanel

/-- C2: for every list and every id present in it, after `toggle(id)` the
list consists of the still-pending items of the flipped list in their
previous relative order, followed by all done items — a permutation of the
flipped list's done items — pairwise ordered by `completedAt` descending
(a missing `completedAt` counts as 0, per the comparator's `?? 0`). -/
theorem c2_toggle_canonical_order (now : Nat) (id : String) (l : List Todo)
    (_hmem : ∃ i ∈ l, i.id = id) :
    (toggle now id l).filter (fun i => !i.done)
        = (l.map (toggleItem now id)).filter (fun i => !i.done)
    ∧ toggle now id l
        = (toggle now id l).filter (fun i => !i.done)
          ++ (toggle now id l).filter (fun i => i.done)
    ∧ ((toggle now id l).filter fun i => i.done).Perm
        ((l.map (toggleItem now id)).filter fun i => i.done)
    ∧ ((toggle now id l).filter fun i => i.done).Pairwise
        (fun a b => completedKey b ≤ completedKey a) := by
  set M := l.map (toggleItem now id) with hM
  have hsortP :
      ((M.filter fun i => i.done).mergeSort completedLe).filter
          (fun i => !i.done) = [] := by
    rw [List.filter_eq_nil_iff]
    intro a ha
    simp [mem_mergeSort_done ha]
  have hsortD :
      ((M.filter fun i => i.done).mergeSort completedLe).filter
          (fun i => i.done)
        = (M.filter fun i => i.done).mergeSort completedLe :=
    List.filter_eq_self.2 fun a ha => mem_mergeSort_done ha
  have hpendP :
      (M.filter fun i => !i.done).filter (fun i => !i.done)
        = M.filter fun i => !i.done :=
    List.filter_eq_self.2 fun a ha => (List.mem_filter.1 ha).2
  have hpendD :
      (M.filter fun i => !i.done).filter (fun i => i.done) = [] := by
    rw [List.filter_eq_nil_iff]
    intro a ha
    have h2 := (List.mem_filter.1 ha).2
    simp only [Bool.not_eq_true'] at h2
    simp [h2]
  have hfiltP :
      (toggle now id l).filter (fun i => !i.done)
        = M.filter fun i => !i.done := by
    rw [toggle_parts, ← hM, List.filter_append, hpendP, hsortP,
      List.append_nil]
  have hfiltD :
      (toggle now id l).filter (fun i => i.done)
        = (M.filter fun i => i.done).mergeSort completedLe := by
    rw [toggle_parts, ← hM, List.filter_append, hpendD, hsortD,
      List.nil_append]
  refine ⟨hfiltP, ?_, ?_, ?_⟩
  · rw [hfiltP, hfiltD, toggle_parts, ← hM]
  · rw [hfiltD]
    exact List.mergeSort_perm _ _
  · rw [hfiltD]
    exact (List.sorted_mergeSort completedLe_trans completedLe_total _).imp
      fun h => of_decide_eq_true h

/-- C2 witness: the done-segment ordering conjunct evaluated at a concrete
single-item list containing the toggled id. -/
theorem c2_witness :
    ((toggle 7 "a" [exA]).filter fun i => i.done).Pairwise
      (fun a b => completedKey b ≤ completedKey a) :=
  (c2_toggle_canonical_order 7 "a" [exA]
    ⟨exA, List.mem_singleton.2 rfl, rfl⟩).2.2.2

/-- C8 counterexample: `toggle` with an id matching no item is not always
the identity — on a list that is not already in canonical order (a done
item before a pending one) it still re-partitions the list, moving the
pending item first. -/
theorem c8_counterexample :
    toggle 0 "zzz" [exMDone, exMPend] ≠ [exMDone, exMPend] := by
  have h : toggle 0 "zzz" [exMDone, exMPend] = [exMPend, exMDone] := by
    rw [toggle_parts]
    have h1 : [exMDone, exMPend].map (toggleItem 0 "zzz")
        = [exMDone, exMPend] := by decide
    rw [h1]
    have h2 : [exMDone, exMPend].filter (fun i => !i.done) = [exMPend] := by
      decide
    have h3 : [exMDone, exMPend].filter (fun i => i.done) = [exMDone] := by
      decide
    rw [h2, h3, List.mergeSort_singleton]
    rfl
  rw [h]
  decide

/-- C8 corrected: `toggle` with an id matching no item never changes any
individual item — the result is a permutation of the input — and it is the
identity exactly on lists already in canonical order (all pending items
first, done items sorted by `completedAt` descending); on other lists it
re-sorts into that order. -/
theorem c8_amended (now : Nat) (id : String) (l : List Todo)
    (hid : ∀ i ∈ l, i.id ≠ id) :
    (toggle now id l).Perm l
    ∧ (l = l.filter (fun i => !i.done) ++ (l.filter fun i => i.done) →
       (l.filter fun i => i.done).Pairwise
         (fun a b => completedKey b ≤ completedKey a) →
       toggle now id l = l) := by
  have hmap : l.map (toggleItem now id) = l := by
    have h := List.map_congr_left (l := l)
      (f := toggleItem now id) (g := fun a => a)
      (fun a ha => by simp [toggleItem, hid a ha])
    simpa using h
  constructor
  · rw [toggle_parts, hmap]
    have h1 : ((l.filter fun i => i.done).mergeSort completedLe).Perm
        (l.filter fun i => i.done) := List.mergeSort_perm _ _
    have h2 : ((l.filter fun i => !i.done) ++ (l.filter fun i => i.done)).Perm
        l := by
      have h3 := List.filter_append_perm (fun i => !i.done) l
      have h4 : l.filter (fun x => !!x.done) = l.filter (fun i => i.done) :=
        List.filter_congr (fun x _ => by simp)
      rwa [h4] at h3
    exact (List.Perm.append_left _ h1).trans h2
  · intro hcanon hsorted
    have hs : (l.filter fun i => i.done).Pairwise
        (fun a b => completedLe a b = true) :=
      hsorted.imp fun h => decide_eq_true h
    rw [toggle_parts, hmap, List.mergeSort_of_sorted hs, ← hcanon]

/-- C8 witness: on a concrete canonically ordered list with an unknown id,
`toggle` is the identity. -/
theorem c8_witness :
    toggle 1 "zz" [exMPend, exMDone] = [exMPend, exMDone] :=
  (c8_amended 1 "zz" [exMPend, exMDone] (by decide)).2 (by decide) (by decide)

/-- C1 counterexample: on a notebook-derived item the core mutation
operations are not no-ops — `toggle` flips it (stamping `completedAt`),
`remove` deletes it, and `startEdit` on a pending notebook item begins an
edit session. -/
theorem c1_counterexample :
    toggle 5 "n1" [exNbPending] ≠ [exNbPending]
    ∧ remove "n1" [exNbPending] ≠ [exNbPending]
    ∧ startEdit exNbPending { editingId := none, editText := "" }
        ≠ { editingId := none, editText := "" } := by
  refine ⟨?_, by decide, by decide⟩
  have h : toggle 5 "n1" [exNbPending] = [exNbDone] := by
    rw [toggle_parts]
    have h1 : [exNbPending].map (toggleItem 5 "n1") = [exNbDone] := by decide
    have h2 : [exNbDone].filter (fun i => !i.done) = [] := by decide
    have h3 : [exNbDone].filter (fun i => i.done) = [exNbDone] := by decide
    rw [h1, h2, h3, List.mergeSort_singleton]
    rfl
  rw [h]
  decide

/-- C1 corrected: the mutation operations themselves do not check the
item's source (see the counterexample); the read-only guarantee for
notebook-derived items is enforced by the render layer instead — their
toggle checkbox is rendered disabled, the Edit button is not rendered, and
the Delete button is replaced by an Open button — while `startEdit` itself
is a no-op only for done items. -/
theorem c1_amended (item : Todo) (editingId : Option String)
    (es : EditSession) (h : isNotebookTodo item = true) :
    disableInteractions editingId item = true
    ∧ showEditButton item = false
    ∧ showDeleteButton item = false
    ∧ (item.done = true → startEdit item es = es) := by
  refine ⟨?_, ?_, ?_, fun hd => ?_⟩
  · simp [disableInteractions, h]
  · simp [showEditButton, h]
  · simp [showDeleteButton, h]
  · simp [startEdit, hd]

/-- C1 witness: the render guards evaluated on a concrete done notebook
item. -/
theorem c1_witness :
    disableInteractions none exNbDone = true
    ∧ showEditButton exNbDone = false
    ∧ showDeleteButton exNbDone = false
    ∧ (exNbDone.done = true →
        startEdit exNbDone { editingId := none, editText := "" }
          = { editingId := none, editText := "" }) :=
  c1_amended exNbDone none { editingId := none, editText := "" } (by decide)

/-- C7: every list reachable from the empty list by add/toggle/remove/edit
operations satisfies done ⇔ completedAt-present for each of its items;
moreover `toggleItem` stamps `completedAt` with the transition time when an
item becomes done and clears it when it reverts, and `add` creates items
with `done = false` and no `completedAt`. -/
theorem c7_done_iff_completedAt (ops : List Op) (i : Todo)
    (hmem : i ∈ run ops) :
    (i.done = true ↔ i.completedAt.isSome = true)
    ∧ (∀ now id j, (j : Todo).id = id →
        ((j.done = false →
          toggleItem now id j
            = { j with done := true, completedAt := some now })
        ∧ (j.done = true →
          toggleItem now id j
            = { j with done := false, completedAt := none })))
    ∧ (∀ freshId text l, jsTrim text ≠ "" →
        add freshId text l
          = { id := freshId, text := jsTrim text, done := false } :: l) := by
  refine ⟨doneInv_run ops i hmem, ?_, ?_⟩
  · intro now id j hj
    constructor <;> intro hd <;> simp [toggleItem, hj, hd]
  · intro freshId text l ht
    simp [add, ht]

/-- C7 witness: the invariant instance for the item produced by a concrete
one-operation history. -/
theorem c7_witness :
    (({ id := "a", text := "milk", done := false } : Todo).done = true
      ↔ ({ id := "a", text := "milk", done := false } :
          Todo).completedAt.isSome = true) :=
  (c7_done_iff_completedAt [Op.add "a" "milk"]
    { id := "a", text := "milk", done := false } (by decide)).1

/-- C9: the refresh handler first clears any pending completion timer and
enters `refreshing`; `completed` is entered exactly when the load succeeds
and is immediately followed by scheduling a 1200 ms (≈1 s) timer whose
callback returns to `idle`; on load failure the trace goes directly from
`refreshing` to `idle` with no `completed` in between; in both cases the
handler returns a complete trace — the load failure is caught, not
propagated. -/
theorem c9_refresh_machine (timerPending : Bool)
    (outcome : Except Unit (List Todo)) :
    (refresh timerPending outcome).take (if timerPending then 2 else 1)
        = (if timerPending then [RAction.clearPendingTimer] else [])
          ++ [RAction.setRefreshState RefreshState.refreshing]
    ∧ (RAction.setRefreshState RefreshState.completed
          ∈ refresh timerPending outcome
        ↔ ∃ l, outcome = Except.ok l)
    ∧ (∀ l, outcome = Except.ok l →
        refresh timerPending outcome
          = (if timerPending then [RAction.clearPendingTimer] else [])
            ++ [RAction.setRefreshState RefreshState.refreshing,
                RAction.setItems l, RAction.logRefreshDebug,
                RAction.setRefreshState RefreshState.completed,
                RAction.scheduleTimer 1200 RefreshState.idle])
    ∧ (∀ e, outcome = Except.error e →
        refresh timerPending outcome
          = (if timerPending then [RAction.clearPendingTimer] else [])
            ++ [RAction.setRefreshState RefreshState.refreshing,
                RAction.logRefreshError,
                RAction.setRefreshState RefreshState.idle]) := by
  cases timerPending <;> cases outcome <;> simp [refresh]

/-- C9 witness: the successful-refresh trace at a concrete call with a
pending timer. -/
theorem c9_witness :
    refresh true (Except.ok ([] : List Todo))
      = (if true then [RAction.clearPendingTimer] else [])
        ++ [RAction.setRefreshState RefreshState.refreshing,
            RAction.setItems [], RAction.logRefreshDebug,
            RAction.setRefreshState RefreshState.completed,
            RAction.scheduleTimer 1200 RefreshState.idle] :=
  (c9_refresh_machine true (Except.ok [])).2.2.1 [] rfl

/-- C3 counterexample: a load whose GET returns 2xx with an items array but
whose local-cache overwrite throws does fall back to the local-cache read
path and returns the cached list, not the server list. -/
theorem c3_counterexample :
    (loadTodos false
        { get := HttpOutcome.ok (GetBody.items [exSrvManual]),
          cacheSaveThrows := true,
          cacheFetch := CacheFetchOutcome.list [exCached] }).1
      = [exCached]
    ∧ [exCached] ≠ [exSrvManual]
    ∧ Event.cacheRead ∈ (loadTodos false
        { get := HttpOutcome.ok (GetBody.items [exSrvManual]),
          cacheSaveThrows := true,
          cacheFetch := CacheFetchOutcome.list [exCached] }).2.2 := by
  decide

/-- C3 corrected: when the GET returns 2xx with an items array and the
local-cache overwrite does not throw, the load overwrites the cache with
exactly the manual-only subset, returns the full array, leaves the sticky
flag unchanged, and never touches the local-cache read path. -/
theorem c3_amended (flag : Bool) (l : List Todo) (b : LoadBehavior)
    (hget : b.get = HttpOutcome.ok (GetBody.items l))
    (hsave : b.cacheSaveThrows = false) :
    (loadTodos flag b).1 = l
    ∧ (loadTodos flag b).2.2
        = [Event.getRequest, Event.cacheWrite (filterManualTodos l)]
    ∧ Event.cacheRead ∉ (loadTodos flag b).2.2
    ∧ (loadTodos flag b).2.1 = flag := by
  rcases b with ⟨get, cst, cf⟩
  cases hget
  cases hsave
  simp [loadTodos, loadFromServer, loadServerErr]

/-- C3 witness: a concrete successful load returns the full server list
(notebook plus manual) and overwrites the cache with only the manual
subset. -/
theorem c3_witness :
    (loadTodos false
        { get := HttpOutcome.ok (GetBody.items [exSrvNotebook, exSrvManual]),
          cacheSaveThrows := false,
          cacheFetch := CacheFetchOutcome.nonList }).1
      = [exSrvNotebook, exSrvManual]
    ∧ (loadTodos false
        { get := HttpOutcome.ok (GetBody.items [exSrvNotebook, exSrvManual]),
          cacheSaveThrows := false,
          cacheFetch := CacheFetchOutcome.nonList }).2.2
        = [Event.getRequest,
           Event.cacheWrite
             (filterManualTodos [exSrvNotebook, exSrvManual])]
    ∧ Event.cacheRead ∉ (loadTodos false
        { get := HttpOutcome.ok (GetBody.items [exSrvNotebook, exSrvManual]),
          cacheSaveThrows := false,
          cacheFetch := CacheFetchOutcome.nonList }).2.2
    ∧ (loadTodos false
        { get := HttpOutcome.ok (GetBody.items [exSrvNotebook, exSrvManual]),
          cacheSaveThrows := false,
          cacheFetch := CacheFetchOutcome.nonList }).2.1 = false :=
  c3_amended false [exSrvNotebook, exSrvManual] _ rfl rfl

/-- C4: when the remote read fails (any non-2xx status or a thrown
request), the load falls back to the local-cache read and returns the
stored list; a non-list cache payload yields the empty list; a throwing
cache read is caught, logged, and yields the empty list. The embedding
returns a value for every collaborator behaviour — each catch block of the
source is modelled — so the load never rejects outward. -/
theorem c4_load_fallback (flag : Bool) (b : LoadBehavior)
    (hfail : ∀ body, b.get ≠ HttpOutcome.ok body) :
    ((loadTodos flag b).1
        = match b.cacheFetch with
          | CacheFetchOutcome.list l => l
          | CacheFetchOutcome.nonList => []
          | CacheFetchOutcome.throws => [])
    ∧ Event.cacheRead ∈ (loadTodos flag b).2.2
    ∧ (b.cacheFetch = CacheFetchOutcome.throws →
        Event.logLoadLocalError ∈ (loadTodos flag b).2.2) := by
  rcases b with ⟨get, cst, cf⟩
  cases get with
  | ok body => exact absurd rfl (hfail body)
  | status code =>
      by_cases hc : code = 404 <;> cases flag <;> cases cf <;>
        simp [loadTodos, loadFromServer, loadServerErr, loadFromState,
          handleEndpointMissing, hc]
  | netThrow =>
      cases cf <;>
        simp [loadTodos, loadFromServer, loadServerErr, loadFromState,
          handleEndpointMissing]

/-- C4 witness: a concrete load with a 500 GET and a throwing cache read
returns the empty list and logs the local-cache error. -/
theorem c4_witness :
    ((loadTodos false
        { get := HttpOutcome.status 500, cacheSaveThrows := false,
          cacheFetch := CacheFetchOutcome.throws }).1 = [])
    ∧ Event.cacheRead ∈ (loadTodos false
        { get := HttpOutcome.status 500, cacheSaveThrows := false,
          cacheFetch := CacheFetchOutcome.throws }).2.2
    ∧ (CacheFetchOutcome.throws = CacheFetchOutcome.throws →
        Event.logLoadLocalError ∈ (loadTodos false
          { get := HttpOutcome.status 500, cacheSaveThrows := false,
            cacheFetch := CacheFetchOutcome.throws }).2.2) :=
  c4_load_fallback false
    { get := HttpOutcome.status 500, cacheSaveThrows := false,
      cacheFetch := CacheFetchOutcome.throws }
    (fun _ h => HttpOutcome.noConfusion h)

/-- C5: every save writes exactly the manual-only subset to the local
cache and then sends the same subset as the remote PUT body; a throwing
cache write only adds a logged local error before the PUT, which is still
issued; and the trace is total in the collaborator behaviour (both tiers
throwing at worst add log lines), so the save never rejects outward. -/
theorem c5_save_manual_subset (flag : Bool) (todos : List Todo)
    (b : SaveBehavior) :
    (saveTodos flag todos b).2
      = Event.cacheWrite (filterManualTodos todos)
          :: ((if b.cacheSaveThrows then [Event.logSaveLocalError] else [])
            ++ Event.putRequest (filterManualTodos todos)
            :: (match b.put with
                | HttpOutcome.ok _ => []
                | HttpOutcome.status code =>
                    if code = 404 then
                      if flag then [] else [Event.logEndpointMissingNotice]
                    else [Event.logSaveServerError]
                | HttpOutcome.netThrow => [Event.logSaveServerError])) := by
  rcases b with ⟨cst, put⟩
  cases put with
  | ok u => cases cst <;> simp [saveTodos]
  | status code =>
      by_cases hc : code = 404 <;> cases flag <;> cases cst <;>
        simp [saveTodos, handleEndpointMissing, hc]
  | netThrow =>
      cases cst <;> simp [saveTodos, handleEndpointMissing]

theorem syncStep_spec (flag : Bool) (op : SyncOp) :
    (syncStep flag op).2.countP isEndpointMissingLog
        = (if !flag && raises404 op then 1 else 0)
    ∧ (syncStep flag op).2.countP isServerErrorLog
        = (if remoteFailsOther op then 1 else 0)
    ∧ (syncStep flag op).1 = (flag || raises404 op) := by
  cases op with
  | load b =>
      rcases b with ⟨get, cst, cf⟩
      cases get with
      | ok body =>
          cases body <;> cases cst <;> cases cf <;> cases flag <;>
            simp [syncStep, loadTodos, loadFromServer, loadServerErr,
              loadFromState, handleEndpointMissing, raises404,
              remoteFailsOther, isEndpointMissingLog, isServerErrorLog]
      | status code =>
          by_cases hc : code = 404 <;> cases cst <;> cases cf <;>
              cases flag <;>
            simp [syncStep, loadTodos, loadFromServer, loadServerErr,
              loadFromState, handleEndpointMissing, raises404,
              remoteFailsOther, isEndpointMissingLog, isServerErrorLog, hc]
      | netThrow =>
          cases cst <;> cases cf <;> cases flag <;>
            simp [syncStep, loadTodos, loadFromServer, loadServerErr,
              loadFromState, handleEndpointMissing, raises404,
              remoteFailsOther, isEndpointMissingLog, isServerErrorLog]
  | save todos b =>
      rcases b with ⟨cst, put⟩
      cases put with
      | ok u =>
          cases cst <;> cases flag <;>
            simp [syncStep, saveTodos, handleEndpointMissing, raises404,
              remoteFailsOther, isEndpointMissingLog, isServerErrorLog]
      | status code =>
          by_cases hc : code = 404 <;> cases cst <;> cases flag <;>
            simp [syncStep, saveTodos, handleEndpointMissing, raises404,
              remoteFailsOther, isEndpointMissingLog, isServerErrorLog, hc]
      | netThrow =>
          cases cst <;> cases flag <;>
            simp [syncStep, saveTodos, handleEndpointMissing, raises404,
              remoteFailsOther, isEndpointMissingLog, isServerErrorLog]

theorem runSessionFrom_spec (ops : List SyncOp) : ∀ flag : Bool,
    ((runSessionFrom flag ops).2.countP isEndpointMissingLog
        = if flag then 0 else if ops.any raises404 then 1 else 0)
    ∧ (runSessionFrom flag ops).2.countP isServerErrorLog
        = (ops.filter remoteFailsOther).length
    ∧ (runSessionFrom flag ops).1 = (flag || ops.any raises404) := by
  induction ops with
  | nil =>
      intro flag
      cases flag <;> simp [runSessionFrom]
  | cons op rest ih =>
      intro flag
      have hs := syncStep_spec flag op
      have hi := ih ((syncStep flag op).1)
      have e2 : (runSessionFrom flag (op :: rest)).2
          = (syncStep flag op).2
            ++ (runSessionFrom (syncStep flag op).1 rest).2 := rfl
      have e1 : (runSessionFrom flag (op :: rest)).1
          = (runSessionFrom (syncStep flag op).1 rest).1 := rfl
      refine ⟨?_, ?_, ?_⟩
      · rw [e2, List.countP_append, hs.1, hi.1, hs.2.2]
        cases flag <;> cases hr : raises404 op <;>
          simp [hr, List.any_cons]
      · rw [e2, List.countP_append, hs.2.1, hi.2.1]
        cases hr : remoteFailsOther op <;>
          simp [hr, List.filter_cons]
        omega
      · rw [e1, hi.2.2, hs.2.2]
        cases flag <;> cases hr : raises404 op <;>
          simp [hr, List.any_cons]

/-- C6: across any session (any sequence of loads and saves against any
collaborator behaviours), the endpoint-missing diagnostic is logged
exactly once when some operation's remote request 404s — the first
occurrence sets the sticky flag and logs, every later 404 is silent — and
never otherwise; every non-404 remote failure logs a remote-error line on
each occurrence; and the final flag records whether a 404 was ever
seen. -/
theorem c6_sticky_404_logging (ops : List SyncOp) :
    (runSession ops).2.countP isEndpointMissingLog
        = (if ops.any raises404 then 1 else 0)
    ∧ (runSession ops).2.countP isServerErrorLog
        = (ops.filter remoteFailsOther).length
    ∧ (runSession ops).1 = ops.any raises404 := by
  have h := runSessionFrom_spec ops false
  simpa [runSession] using h

/-- C10: the sticky endpoint-missing flag gates only logging — for either
flag value and any collaborator behaviour, every save issues the remote
PUT with the manual-only body and every load issues the remote GET. -/
theorem c10_requests_always_attempted (flag : Bool) (todos : List Todo)
    (bs : SaveBehavior) (bl : LoadBehavior) :
    Event.putRequest (filterManualTodos todos) ∈ (saveTodos flag todos bs).2
    ∧ Event.getRequest ∈ (loadTodos flag bl).2.2 := by
  constructor
  · rcases bs with ⟨cst, put⟩
    cases put with
    | ok u => cases cst <;> simp [saveTodos]
    | status code =>
        by_cases hc : code = 404 <;> cases cst <;> cases flag <;>
          simp [saveTodos, handleEndpointMissing, hc]
    | netThrow =>
        cases cst <;> cases flag <;>
          simp [saveTodos, handleEndpointMissing]
  · rcases bl with ⟨get, cst, cf⟩
    cases get with
    | ok body =>
        cases body <;> cases cst <;>
          simp [loadTodos, loadFromServer, loadServerErr,
            handleEndpointMissing, loadFromState]
    | status code =>
        by_cases hc : code = 404 <;> cases flag <;>
          simp [loadTodos, loadFromServer, loadServerErr,
            handleEndpointMissing, loadFromState, hc]
    | netThrow =>
        simp [loadTodos, loadFromServer, loadServerErr,
          handleEndpointMissing, loadFromState]

end Claims
